import Mathlib

/-!
Verification of the MSGAI-Z audit-protocol core.

Shallow embedding of the state-transition engine found in
`js/audit_acts.js` (halt/restart, account creation, transfer, mint,
exchange), `js/core_logic.js` (system state, vibration gauge) and
`js/infra_acts.js` (infrastructure supply adjustment).

Modelling conventions:
- JavaScript `float64` quantities (balances, amounts, rates, the
  vibration value) are modelled as rationals `ℚ`; `NaN` is not
  representable, so `isNaN(x)` reads as `False` in the model.
- A JavaScript object used as a keyed record (account balance fields,
  `currency_rates`, `infrastructure`) is modelled as a total function
  from `String`; a field that is absent in JavaScript reads as `0`
  (matching the `(acc[currency] || 0)` reads on every credit path) or
  as `none` for `infrastructure`.
- `null` / empty-string ids from the DOM layer are modelled as `""`,
  which is the falsy value the source tests with `if (recipientId && ...)`.
- Each act returns the successor state together with `Option ActError`:
  `none` means the act committed, `some e` means it logged error `e` and
  returned without mutating anything.  The persistence write performed by
  `saveSystemState` always also updates the local state, so a single
  `SystemState` suffices; `decayVibration` additionally returns a `Bool`
  recording whether the change was committed to the state store or only
  kept in the local snapshot.
-/

namespace MSGAI

/-- The hard constant `VIBRATION_LIMIT = 100` from `core_logic.js`. -/
def VIBRATION_LIMIT : ℚ := 100

/-- The `vibration_level` record: `{ value, last_decay }` (timestamps in
milliseconds, as produced by `Date.now()`). -/
structure VibrationLevel where
  value : ℚ
  last_decay : ℚ

/-- An account object: `{ id, name, ALPHA, BETA, GAMMA, ... }`; the
per-currency balance fields are modelled as one total function. -/
structure Account where
  id : String
  name : String
  bal : String → ℚ

/-- An infrastructure entry `{ value, last_change }` from `infra_acts.js`. -/
structure InfraEntry where
  value : ℚ
  last_change : ℚ

/-- The system state object owned by `core_logic.js`. -/
structure SystemState where
  isHalted : Bool
  vibration : VibrationLevel
  currency_rates : String → ℚ
  accounts : List Account
  infrastructure : String → Option InfraEntry

/-- Modelled from the spec: `KNOWLEDGE.DEFINITIONS.CURRENCIES` lives in
`js/knowledge_base.js`, which is not among the sources.  The spec calls it
the configured enumerated currency set; the reference configuration
(initial accounts, `currency_rates`, account creation) uses exactly
ALPHA, BETA and GAMMA. -/
def CURRENCIES : List String := ["ALPHA", "BETA", "GAMMA"]

/-- The error kinds surfaced by validation and by the acts' own checks
(each corresponds to one `logToConsole` error path in the source). -/
inductive ActError where
  | systemHalted
  | vibrationExceeded
  | invalidAmount
  | unknownCurrency
  | senderNotFound
  | recipientNotFound
  | insufficientBalance
  | sameCurrency
  | invalidOrDuplicateId
  | alreadyHalted
  | alreadyOperational
deriving DecidableEq, Repr

/-- The record returned by `validateAct` on success. -/
structure ValidatedArgs where
  sender : Option Account
  recipient : Option Account
  amount : ℚ
  currency : String

/-- `addVibration(amount)` from `core_logic.js`:
`newVibration = Math.min(value + amount, VIBRATION_LIMIT * 2)`. -/
def addVibration (s : SystemState) (amount : ℚ) : SystemState :=
  { s with vibration :=
      { s.vibration with value := min (s.vibration.value + amount) (VIBRATION_LIMIT * 2) } }

/-- `decayVibration()` from `core_logic.js`.  `now` is the current time in
milliseconds.  The returned `Bool` is `true` when the new vibration record
was committed to the state store, `false` when (as in the source's `else`
branch, or when less than one second elapsed) only the local snapshot was
touched. -/
def decayVibration (s : SystemState) (now : ℚ) : SystemState × Bool :=
  let timeElapsed := (now - s.vibration.last_decay) / 1000
  if 1 ≤ timeElapsed then
    let decayRate : ℚ := 1 / 2
    let decayAmount := timeElapsed * decayRate
    let newValue := max 0 (s.vibration.value - decayAmount)
    if 1 ≤ |newValue - s.vibration.value| then
      ({ s with vibration := { value := newValue, last_decay := now } }, true)
    else
      ({ s with vibration := { value := newValue, last_decay := now } }, false)
  else
    (s, false)

/-- `resetVibration()` from `core_logic.js`. -/
def resetVibration (s : SystemState) (now : ℚ) : SystemState :=
  { s with vibration := { value := 0, last_decay := now } }

/-- Functional update of one balance field of an account, as performed by
the object spreads `{ ...acc, [currency]: v }` in the acts. -/
def Account.setBal (a : Account) (c : String) (v : ℚ) : Account :=
  { a with bal := fun x => if x == c then v else a.bal x }

/-- `validateAct(senderId, recipientId, amount, currency, state, isMint)`
from `audit_acts.js`, checking its seven preconditions in source order and
short-circuiting on the first failure. -/
def validateAct (senderId recipientId : String) (amount : ℚ) (currency : String)
    (state : SystemState) (isMint : Bool) : Except ActError ValidatedArgs :=
  if state.isHalted = true then .error .systemHalted
  else if VIBRATION_LIMIT ≤ state.vibration.value then .error .vibrationExceeded
  else if amount ≤ 0 then .error .invalidAmount
  else if ¬ currency ∈ CURRENCIES then .error .unknownCurrency
  else
    let sender := state.accounts.find? fun acc => acc.id == senderId
    let recipient := state.accounts.find? fun acc => acc.id == recipientId
    if isMint = false ∧ sender.isNone = true then .error .senderNotFound
    else if recipientId ≠ "" ∧ recipient.isNone = true then .error .recipientNotFound
    else if isMint = false ∧ sender.elim 0 (fun a => a.bal currency) < amount then
      .error .insufficientBalance
    else .ok ⟨sender, recipient, amount, currency⟩

/-- `actForcedHalt()` from `audit_acts.js`. -/
def actForcedHalt (s : SystemState) : SystemState × Option ActError :=
  if s.isHalted = true then (s, some .alreadyHalted)
  else (addVibration { s with isHalted := true } 5, none)

/-- `actRestart()` from `audit_acts.js`. -/
def actRestart (s : SystemState) : SystemState × Option ActError :=
  if s.isHalted = false then (s, some .alreadyOperational)
  else (addVibration { s with isHalted := false } 5, none)

/-- `handleCreateAccountAct()` from `audit_acts.js`, with the DOM reads
(`newId`, `newName`) lifted to parameters. -/
def handleCreateAccountAct (newId newName : String) (s : SystemState) :
    SystemState × Option ActError :=
  if newId = "" ∨ (s.accounts.any fun acc => acc.id == newId) = true then
    (s, some .invalidOrDuplicateId)
  else if s.isHalted = true then (s, some .systemHalted)
  else
    let newAccount : Account :=
      { id := newId
        name := if newName = "" then "監査アカウント " ++ newId else newName
        bal := fun _ => 0 }
    (addVibration { s with accounts := s.accounts ++ [newAccount] } 1, none)

/-- `actTransfer()` from `audit_acts.js`, DOM reads lifted to parameters. -/
def actTransfer (senderId recipientId : String) (amount : ℚ) (currency : String)
    (s : SystemState) : SystemState × Option ActError :=
  match validateAct senderId recipientId amount currency s false with
  | .error e => (s, some e)
  | .ok v =>
    let newAccounts := s.accounts.map fun acc =>
      if acc.id == senderId then acc.setBal currency (acc.bal currency - v.amount)
      else if acc.id == recipientId then acc.setBal currency (acc.bal currency + v.amount)
      else acc
    (addVibration { s with accounts := newAccounts } 2, none)

/-- `actMintCurrency()` from `audit_acts.js`: `validateAct` is called with
`senderId = null` (modelled `""`) and `isMint = true`. -/
def actMintCurrency (recipientId : String) (amount : ℚ) (currency : String)
    (s : SystemState) : SystemState × Option ActError :=
  match validateAct "" recipientId amount currency s true with
  | .error e => (s, some e)
  | .ok v =>
    let newAccounts := s.accounts.map fun acc =>
      if acc.id == recipientId then acc.setBal currency (acc.bal currency + v.amount)
      else acc
    (addVibration { s with accounts := newAccounts } 3, none)

/-- `actExchangeCurrency()` from `audit_acts.js`: validation runs with
sender = recipient = accountId and currency = `fromCurrency`; the
same-currency check comes after validation; the credit to `toCurrency`
reads the account's balance before the debit (object-literal semantics). -/
def actExchangeCurrency (accountId : String) (amount : ℚ)
    (fromCurrency toCurrency : String) (s : SystemState) :
    SystemState × Option ActError :=
  match validateAct accountId accountId amount fromCurrency s false with
  | .error e => (s, some e)
  | .ok v =>
    if fromCurrency == toCurrency then (s, some .sameCurrency)
    else
      let rate := s.currency_rates toCurrency / s.currency_rates fromCurrency
      let receivedAmount := amount * rate
      let newAccounts := s.accounts.map fun acc =>
        if acc.id == accountId then
          (acc.setBal fromCurrency (acc.bal fromCurrency - v.amount)).setBal
            toCurrency (acc.bal toCurrency + receivedAmount)
        else acc
      (addVibration { s with accounts := newAccounts } 1, none)

/-- The infrastructure key targeted by `actAdjustSupply`. -/
def adjustTargetKey (infrastructureType : String) : String :=
  if infrastructureType == "ENERGY" then "energy_supply" else "net_stability"

/-- `actAdjustSupply(infrastructureType)` from `infra_acts.js`, with the
DOM-read amount and `Date.now()` lifted to parameters. -/
def actAdjustSupply (infrastructureType : String) (amount : ℚ) (now : ℚ)
    (s : SystemState) : SystemState × Option ActError :=
  if amount < 0 ∨ 100 < amount then (s, some .invalidAmount)
  else
    let targetKey := adjustTargetKey infrastructureType
    let newInfrastructure : String → Option InfraEntry :=
      fun k => if k == targetKey then some { value := amount, last_change := now }
               else s.infrastructure k
    (addVibration { s with infrastructure := newInfrastructure } 1, none)

/-- Reads an account balance through the state, as the tests and the UI do:
first account whose id matches, missing account reads as 0. -/
def getBal (s : SystemState) (accId c : String) : ℚ :=
  ((s.accounts.find? fun a => a.id == accId).map fun a => a.bal c).getD 0

/-- Total supply of a currency summed over all accounts. -/
def totalSupply (s : SystemState) (c : String) : ℚ :=
  (s.accounts.map fun a => a.bal c).sum

/-- One operation on the vibration gauge. -/
inductive GaugeOp where
  | add (x : ℚ)
  | decay (now : ℚ)
  | reset (now : ℚ)

/-- Interpretation of a gauge operation on the system state. -/
def applyGaugeOp (s : SystemState) : GaugeOp → SystemState
  | .add x => addVibration s x
  | .decay now => (decayVibration s now).1
  | .reset now => resetVibration s now

/-- A sequence of gauge operations, applied left to right. -/
def applyGaugeOps (s : SystemState) (ops : List GaugeOp) : SystemState :=
  ops.foldl applyGaugeOp s

/-! Concrete states (the reference configuration from `core_logic.js`). -/

/-- The initial `currency_rates` object: ALPHA 1.0, BETA 10.0, GAMMA 100.0. -/
def initialRates : String → ℚ := fun c =>
  if c == "ALPHA" then 1 else if c == "BETA" then 10 else if c == "GAMMA" then 100 else 0

/-- The initial account `CORE_BANK_A`. -/
def coreBankA : Account :=
  { id := "CORE_BANK_A"
    name := "中央銀行A"
    bal := fun c =>
      if c == "ALPHA" then 1000 else if c == "BETA" then 500 else
      if c == "GAMMA" then 100 else 0 }

/-- The initial account `USER_AUDIT_B`. -/
def userAuditB : Account :=
  { id := "USER_AUDIT_B"
    name := "監査者B"
    bal := fun c => if c == "ALPHA" then 50 else 0 }

/-- The initial system state from `core_logic.js` (`last_decay` taken as 0). -/
def initialState : SystemState :=
  { isHalted := false
    vibration := { value := 0, last_decay := 0 }
    currency_rates := initialRates
    accounts := [coreBankA, userAuditB]
    infrastructure := fun _ => none }

/-- The initial state with the kill switch set. -/
def haltedState : SystemState := { initialState with isHalted := true }

/-- A halted state whose vibration value also sits above `VIBRATION_LIMIT`. -/
def haltedHotState : SystemState :=
  { initialState with isHalted := true, vibration := { value := 150, last_decay := 0 } }

/-- A state used to exercise the decay path: vibration value 10, last decay
at time 0. -/
def decayState : SystemState :=
  { initialState with vibration := { value := 10, last_decay := 0 } }

/-- The initial state with the BETA rate made negative (balances untouched,
all of them nonnegative). -/
def negRateState : SystemState :=
  { initialState with currency_rates := fun c =>
      if c == "ALPHA" then 1 else if c == "BETA" then -10 else 0 }

/-- Every balance of every account is nonnegative. -/
def nonnegBalances (s : SystemState) : Prop :=
  ∀ a ∈ s.accounts, ∀ c, 0 ≤ a.bal c

/-- Every currency rate is nonnegative (the data-model invariant says
rates are positive; reading an unknown key gives 0 in this model). -/
def nonnegRates (s : SystemState) : Prop :=
  ∀ c, 0 ≤ s.currency_rates c

/-- Account ids are unique (the data-model invariant on `accounts`). -/
def uniqueIds (s : SystemState) : Prop :=
  (s.accounts.map fun a => a.id).Nodup

/-! Helper lemmas. -/

/-- Updating one balance field leaves the account id unchanged. -/
theorem Account.setBal_id (a : Account) (c : String) (v : ℚ) :
    (a.setBal c v).id = a.id := rfl

/-- Reading back a balance after `setBal`. -/
theorem Account.setBal_bal (a : Account) (c : String) (v : ℚ) (x : String) :
    (a.setBal c v).bal x = if x == c then v else a.bal x := rfl

/-- Case analysis on the value computed by a decay step. -/
theorem decayVibration_value (s : SystemState) (now : ℚ) :
    (decayVibration s now).1.vibration.value = s.vibration.value ∨
    (1 ≤ (now - s.vibration.last_decay) / 1000 ∧
      (decayVibration s now).1.vibration.value =
        max 0 (s.vibration.value - (now - s.vibration.last_decay) / 1000 * (1 / 2))) := by
  unfold decayVibration
  by_cases h : 1 ≤ (now - s.vibration.last_decay) / 1000
  · rw [if_pos h]
    by_cases hc : 1 ≤ |max 0 (s.vibration.value -
        (now - s.vibration.last_decay) / 1000 * (1 / 2)) - s.vibration.value|
    · rw [if_pos hc]
      exact Or.inr ⟨h, rfl⟩
    · rw [if_neg hc]
      exact Or.inr ⟨h, rfl⟩
  · rw [if_neg h]
    exact Or.inl rfl

/-- Inversion of a successful validation: how the result is built and which
facts the seven checks guarantee. -/
theorem validateAct_ok_inv {sid rid : String} {amt : ℚ} {cur : String}
    {s : SystemState} {m : Bool} {v : ValidatedArgs}
    (h : validateAct sid rid amt cur s m = .ok v) :
    v = ⟨s.accounts.find? fun a => a.id == sid,
         s.accounts.find? fun a => a.id == rid, amt, cur⟩ ∧
    s.isHalted = false ∧ s.vibration.value < VIBRATION_LIMIT ∧ 0 < amt ∧
    cur ∈ CURRENCIES ∧
    (m = false → ∃ sa, (s.accounts.find? fun a => a.id == sid) = some sa ∧
      amt ≤ sa.bal cur) ∧
    (rid ≠ "" → ∃ ra, (s.accounts.find? fun a => a.id == rid) = some ra) := by
  unfold validateAct at h
  dsimp only at h
  split at h
  · exact absurd h (by simp)
  next h1 =>
  split at h
  · exact absurd h (by simp)
  next h2 =>
  split at h
  · exact absurd h (by simp)
  next h3 =>
  split at h
  · exact absurd h (by simp)
  next h4 =>
  split at h
  · exact absurd h (by simp)
  next h5 =>
  split at h
  · exact absurd h (by simp)
  next h6 =>
  split at h
  · exact absurd h (by simp)
  next h7 =>
  cases h
  refine ⟨rfl, by simpa using h1, not_le.mp h2, not_le.mp h3, not_not.mp h4, ?_, ?_⟩
  · intro hm
    have hsome : (s.accounts.find? fun a => a.id == sid).isSome = true := by
      rcases hfind : s.accounts.find? fun a => a.id == sid with _ | sa
      · exact absurd ⟨hm, by rw [hfind]; rfl⟩ h5
      · rw [hfind]
        rfl
    obtain ⟨sa, hsa⟩ := Option.isSome_iff_exists.mp hsome
    refine ⟨sa, hsa, ?_⟩
    by_contra hlt
    push_neg at hlt
    exact h7 ⟨hm, by rw [hsa]; simpa using hlt⟩
  · intro hrid
    rcases hfind : s.accounts.find? fun a => a.id == rid with _ | ra
    · exact absurd ⟨hrid, by rw [hfind]; rfl⟩ h6
    · exact ⟨ra, hfind⟩

/-- With unique ids, `find?` locates any member by its id. -/
theorem find?_unique {l : List Account} {x : String} {a : Account}
    (hnd : (l.map fun b => b.id).Nodup) (ha : a ∈ l) (hid : a.id = x) :
    l.find? (fun b => b.id == x) = some a := by
  induction l with
  | nil => cases ha
  | cons b t ih =>
    rw [List.map_cons, List.nodup_cons] at hnd
    rcases List.mem_cons.mp ha with rfl | hat
    · rw [List.find?_cons_of_pos _ (by simp [hid])]
    · have hbx : ¬((b.id == x) = true) := by
        intro hbeq
        have hb : b.id = x := by simpa using hbeq
        have hmem : a.id ∈ t.map (fun c => c.id) := List.mem_map_of_mem _ hat
        rw [hid, ← hb] at hmem
        exact hnd.1 hmem
      rw [List.find?_cons_of_neg (p := fun b : Account => b.id == x) _ hbx]
      exact ih hnd.2 hat

/-- With unique ids, exactly one member matches a present id. -/
theorem countP_id_eq_one {l : List Account} {x : String} {a : Account}
    (hnd : (l.map fun b => b.id).Nodup) (ha : a ∈ l) (hid : a.id = x) :
    l.countP (fun b => b.id == x) = 1 := by
  induction l with
  | nil => cases ha
  | cons b t ih =>
    rw [List.map_cons, List.nodup_cons] at hnd
    rcases List.mem_cons.mp ha with rfl | hat
    · rw [List.countP_cons_of_pos (fun b : Account => b.id == x) _ (by simp [hid])]
      have hzero : t.countP (fun b => b.id == x) = 0 := by
        rw [List.countP_eq_zero]
        intro c hc hpc
        have hcx : c.id = x := by simpa using hpc
        have hmem : c.id ∈ t.map (fun b => b.id) := List.mem_map_of_mem _ hc
        rw [hcx, ← hid] at hmem
        exact hnd.1 hmem
      rw [hzero]
    · have hbx : ¬((b.id == x) = true) := by
        intro hbeq
        have hb : b.id = x := by simpa using hbeq
        have hmem : a.id ∈ t.map (fun c => c.id) := List.mem_map_of_mem _ hat
        rw [hid, ← hb] at hmem
        exact hnd.1 hmem
      rw [List.countP_cons_of_neg (fun b : Account => b.id == x) _ hbx]
      exact ih hnd.2 hat

/-! Claim theorems. -/

/-- C8: decay with less than one second elapsed changes nothing; with at
least one second elapsed it sets the value to `max 0 (value - elapsed * 0.5)`
and the `last_decay` stamp to `now`, and it commits to the state store
exactly when the value moved by at least 1 (otherwise only the local
snapshot is updated). -/
theorem decayVibration_spec (s : SystemState) (now : ℚ) :
    ((now - s.vibration.last_decay) / 1000 < 1 → decayVibration s now = (s, false)) ∧
    (1 ≤ (now - s.vibration.last_decay) / 1000 →
      (decayVibration s now).1.vibration.value =
        max 0 (s.vibration.value - (now - s.vibration.last_decay) / 1000 * (1 / 2)) ∧
      (decayVibration s now).1.vibration.last_decay = now ∧
      (decayVibration s now).1.isHalted = s.isHalted ∧
      (decayVibration s now).1.accounts = s.accounts ∧
      ((decayVibration s now).2 = true ↔
        1 ≤ |max 0 (s.vibration.value - (now - s.vibration.last_decay) / 1000 * (1 / 2)) -
              s.vibration.value|)) := by
  constructor
  · intro h
    unfold decayVibration
    rw [if_neg (not_le.mpr h)]
  · intro h
    unfold decayVibration
    rw [if_pos h]
    by_cases hc : 1 ≤ |max 0 (s.vibration.value -
        (now - s.vibration.last_decay) / 1000 * (1 / 2)) - s.vibration.value|
    · rw [if_pos hc]
      exact ⟨rfl, rfl, rfl, rfl, iff_of_true rfl hc⟩
    · rw [if_neg hc]
      exact ⟨rfl, rfl, rfl, rfl, iff_of_false (by simp) hc⟩

/-- Witness for C8 at a concrete input: from `decayState` (value 10,
last decay 0) a decay at time 4000 ms gives value `max 0 (10 - 2) = 8` and
commits, since the value moved by 2. -/
theorem decayVibration_spec_witness :
    (decayVibration decayState 4000).1.vibration.value =
      max 0 (decayState.vibration.value -
        (4000 - decayState.vibration.last_decay) / 1000 * (1 / 2)) ∧
    (decayVibration decayState 4000).2 = true := by
  have h := (decayVibration_spec decayState 4000).2 (by norm_num [decayState, initialState])
  exact ⟨h.1, h.2.2.2.2.mpr (by norm_num [decayState, initialState])⟩

/-- C10: AdjustInfrastructureSupply is gated only by the amount range: it
fails exactly when the amount lies outside `[0, 100]` (with the state
returned untouched), and for an amount in range it replaces the targeted
infrastructure entry and charges a vibration cost of 1 no matter what the
rest of the state says — in particular even in a halted state or with the
vibration value at or above `VIBRATION_LIMIT`, since the state `s` is
unconstrained here. -/
theorem actAdjustSupply_spec (t : String) (amount now : ℚ) (s : SystemState) :
    (amount < 0 ∨ 100 < amount →
      actAdjustSupply t amount now s = (s, some ActError.invalidAmount)) ∧
    (0 ≤ amount → amount ≤ 100 →
      (actAdjustSupply t amount now s).2 = none ∧
      (actAdjustSupply t amount now s).1.infrastructure (adjustTargetKey t) =
        some { value := amount, last_change := now } ∧
      (actAdjustSupply t amount now s).1.vibration.value =
        min (s.vibration.value + 1) (VIBRATION_LIMIT * 2) ∧
      (actAdjustSupply t amount now s).1.isHalted = s.isHalted ∧
      (actAdjustSupply t amount now s).1.accounts = s.accounts) := by
  constructor
  · intro h
    unfold actAdjustSupply
    rw [if_pos h]
  · intro h0 h100
    have hcond : ¬ (amount < 0 ∨ 100 < amount) := by
      push_neg
      exact ⟨h0, h100⟩
    unfold actAdjustSupply
    rw [if_neg hcond]
    refine ⟨rfl, ?_, rfl, rfl, rfl⟩
    simp [addVibration]

/-- Witness for C10 at a concrete input: adjusting ENERGY supply to 40 at
time 1234 succeeds and charges 1 even from `haltedHotState`, which is both
halted and above the vibration limit. -/
theorem actAdjustSupply_spec_witness :
    (actAdjustSupply "ENERGY" 40 1234 haltedHotState).2 = none ∧
    (actAdjustSupply "ENERGY" 40 1234 haltedHotState).1.vibration.value =
      min (haltedHotState.vibration.value + 1) (VIBRATION_LIMIT * 2) ∧
    haltedHotState.isHalted = true ∧
    VIBRATION_LIMIT ≤ haltedHotState.vibration.value := by
  have h := (actAdjustSupply_spec "ENERGY" 40 1234 haltedHotState).2
    (by norm_num) (by norm_num)
  exact ⟨h.1, h.2.2.1, rfl, by norm_num [haltedHotState, initialState, VIBRATION_LIMIT]⟩

/-- C6: Halt and Restart are idempotent: halting while halted (or
restarting while operational) is a no-op that changes no state and charges
nothing; from an operational state, two Halt calls in a row perform exactly
one transition (`isHalted` becomes `true` on the first call, the second
call returns the state unchanged) and charge the cost 5 exactly once. -/
theorem halt_restart_idempotent (s : SystemState) :
    (s.isHalted = true → actForcedHalt s = (s, some ActError.alreadyHalted)) ∧
    (s.isHalted = false → actRestart s = (s, some ActError.alreadyOperational)) ∧
    (s.isHalted = false →
      (actForcedHalt s).1.isHalted = true ∧
      (actForcedHalt s).1.vibration.value =
        min (s.vibration.value + 5) (VIBRATION_LIMIT * 2) ∧
      actForcedHalt (actForcedHalt s).1 =
        ((actForcedHalt s).1, some ActError.alreadyHalted)) := by
  have hgen : ∀ t : SystemState, t.isHalted = true →
      actForcedHalt t = (t, some ActError.alreadyHalted) := by
    intro t ht
    unfold actForcedHalt
    rw [if_pos ht]
  refine ⟨hgen s, ?_, ?_⟩
  · intro h
    unfold actRestart
    rw [if_pos h]
  · intro h
    have hs1 : actForcedHalt s = (addVibration { s with isHalted := true } 5, none) := by
      unfold actForcedHalt
      rw [if_neg (by simp [h])]
    have h1 : (actForcedHalt s).1.isHalted = true := by
      rw [hs1]
      rfl
    exact ⟨h1, by rw [hs1]; rfl, hgen (actForcedHalt s).1 h1⟩

/-- Witness for C6 at a concrete input: from `initialState` (operational),
the first Halt sets `isHalted` and charges 5 (value `min (0+5) 200 = 5`),
and the second Halt is a no-op. -/
theorem halt_restart_idempotent_witness :
    (actForcedHalt initialState).1.isHalted = true ∧
    (actForcedHalt initialState).1.vibration.value =
      min (initialState.vibration.value + 5) (VIBRATION_LIMIT * 2) ∧
    actForcedHalt (actForcedHalt initialState).1 =
      ((actForcedHalt initialState).1, some ActError.alreadyHalted) :=
  (halt_restart_idempotent initialState).2.2 rfl

/-- C2: for every act, when the act reports an error (validation or
precondition failure) the returned state is the input state itself, so the
whole system state — the vibration gauge value included — is unchanged and
no cost is charged. -/
theorem validation_failure_preserves_state (s : SystemState) :
    (∀ e, (actForcedHalt s).2 = some e → (actForcedHalt s).1 = s) ∧
    (∀ e, (actRestart s).2 = some e → (actRestart s).1 = s) ∧
    (∀ newId newName e, (handleCreateAccountAct newId newName s).2 = some e →
      (handleCreateAccountAct newId newName s).1 = s) ∧
    (∀ sid rid amt cur e, (actTransfer sid rid amt cur s).2 = some e →
      (actTransfer sid rid amt cur s).1 = s) ∧
    (∀ rid amt cur e, (actMintCurrency rid amt cur s).2 = some e →
      (actMintCurrency rid amt cur s).1 = s) ∧
    (∀ aid amt fc tc e, (actExchangeCurrency aid amt fc tc s).2 = some e →
      (actExchangeCurrency aid amt fc tc s).1 = s) := by
  refine ⟨?_, ?_, ?_, ?_, ?_, ?_⟩
  · intro e h
    unfold actForcedHalt at h ⊢
    by_cases hh : s.isHalted = true
    · rw [if_pos hh]
    · rw [if_neg hh] at h
      exact absurd h (by simp)
  · intro e h
    unfold actRestart at h ⊢
    by_cases hh : s.isHalted = false
    · rw [if_pos hh]
    · rw [if_neg hh] at h
      exact absurd h (by simp)
  · intro newId newName e h
    unfold handleCreateAccountAct at h ⊢
    by_cases h1 : newId = "" ∨ (s.accounts.any fun acc => acc.id == newId) = true
    · rw [if_pos h1]
    · rw [if_neg h1] at h ⊢
      by_cases h2 : s.isHalted = true
      · rw [if_pos h2]
      · rw [if_neg h2] at h
        exact absurd h (by simp)
  · intro sid rid amt cur e h
    unfold actTransfer at h ⊢
    cases hv : validateAct sid rid amt cur s false with
    | error err => rfl
    | ok v =>
      rw [hv] at h
      simp at h
  · intro rid amt cur e h
    unfold actMintCurrency at h ⊢
    cases hv : validateAct "" rid amt cur s true with
    | error err => rfl
    | ok v =>
      rw [hv] at h
      simp at h
  · intro aid amt fc tc e h
    unfold actExchangeCurrency at h ⊢
    cases hv : validateAct aid aid amt fc s false with
    | error err => rfl
    | ok v =>
      rw [hv] at h
      by_cases hc : (fc == tc) = true
      · simp [hc]
      · simp [hc] at h


/-- Witness for C2 at a concrete input: a transfer attempted in
`haltedState` fails validation and returns the state unchanged. -/
theorem validation_failure_preserves_state_witness :
    (actTransfer "CORE_BANK_A" "USER_AUDIT_B" 5 "ALPHA" haltedState).1 = haltedState :=
  (validation_failure_preserves_state haltedState).2.2.2.1
    "CORE_BANK_A" "USER_AUDIT_B" 5 "ALPHA" ActError.systemHalted (by rfl)

/-- C3: the seven validation checks run in exactly the source order,
short-circuiting on the first failure, so whenever several failure
conditions hold at once the reported error is the earliest one; the
function is pure (it is a Lean function of the state, so it cannot mutate
it) and on success returns the resolved references and the amount. -/
theorem validateAct_check_order (sid rid : String) (amt : ℚ) (cur : String)
    (s : SystemState) (m : Bool) :
    (s.isHalted = true → validateAct sid rid amt cur s m = .error .systemHalted) ∧
    (s.isHalted = false → VIBRATION_LIMIT ≤ s.vibration.value →
      validateAct sid rid amt cur s m = .error .vibrationExceeded) ∧
    (s.isHalted = false → s.vibration.value < VIBRATION_LIMIT → amt ≤ 0 →
      validateAct sid rid amt cur s m = .error .invalidAmount) ∧
    (s.isHalted = false → s.vibration.value < VIBRATION_LIMIT → 0 < amt →
      cur ∉ CURRENCIES → validateAct sid rid amt cur s m = .error .unknownCurrency) ∧
    (s.isHalted = false → s.vibration.value < VIBRATION_LIMIT → 0 < amt →
      cur ∈ CURRENCIES → m = false →
      (s.accounts.find? fun a => a.id == sid) = none →
      validateAct sid rid amt cur s m = .error .senderNotFound) ∧
    (s.isHalted = false → s.vibration.value < VIBRATION_LIMIT → 0 < amt →
      cur ∈ CURRENCIES →
      (m = false → ((s.accounts.find? fun a => a.id == sid)).isSome = true) →
      rid ≠ "" → (s.accounts.find? fun a => a.id == rid) = none →
      validateAct sid rid amt cur s m = .error .recipientNotFound) ∧
    (∀ sa, s.isHalted = false → s.vibration.value < VIBRATION_LIMIT → 0 < amt →
      cur ∈ CURRENCIES → m = false →
      (s.accounts.find? fun a => a.id == sid) = some sa →
      (rid = "" ∨ ((s.accounts.find? fun a => a.id == rid)).isSome = true) →
      sa.bal cur < amt →
      validateAct sid rid amt cur s m = .error .insufficientBalance) ∧
    (s.isHalted = false → s.vibration.value < VIBRATION_LIMIT → 0 < amt →
      cur ∈ CURRENCIES →
      (m = false → ∃ sa, (s.accounts.find? fun a => a.id == sid) = some sa ∧
        amt ≤ sa.bal cur) →
      (rid = "" ∨ ((s.accounts.find? fun a => a.id == rid)).isSome = true) →
      validateAct sid rid amt cur s m =
        .ok ⟨s.accounts.find? fun a => a.id == sid,
             s.accounts.find? fun a => a.id == rid, amt, cur⟩) := by
  refine ⟨?_, ?_, ?_, ?_, ?_, ?_, ?_, ?_⟩
  · intro h1
    unfold validateAct
    rw [if_pos h1]
  · intro h1 h2
    unfold validateAct
    rw [if_neg (by simp [h1]), if_pos h2]
  · intro h1 h2 h3
    unfold validateAct
    rw [if_neg (by simp [h1]), if_neg (not_le.mpr h2), if_pos h3]
  · intro h1 h2 h3 h4
    unfold validateAct
    rw [if_neg (by simp [h1]), if_neg (not_le.mpr h2), if_neg (not_le.mpr h3),
      if_pos h4]
  · intro h1 h2 h3 h4 h5 h6
    unfold validateAct
    rw [if_neg (by simp [h1]), if_neg (not_le.mpr h2), if_neg (not_le.mpr h3),
      if_neg (not_not_intro h4)]
    dsimp only
    rw [if_pos ⟨h5, by rw [h6]; rfl⟩]
  · intro h1 h2 h3 h4 h5 h6 h7
    unfold validateAct
    rw [if_neg (by simp [h1]), if_neg (not_le.mpr h2), if_neg (not_le.mpr h3),
      if_neg (not_not_intro h4)]
    dsimp only
    rw [if_neg ?hc5, if_pos ⟨h6, by rw [h7]; rfl⟩]
    case hc5 =>
      rintro ⟨hm, hn⟩
      have hs := h5 hm
      rw [Option.isNone_iff_eq_none] at hn
      rw [hn] at hs
      simp at hs
  · intro sa h1 h2 h3 h4 h5 h6 h7 h8
    unfold validateAct
    rw [if_neg (by simp [h1]), if_neg (not_le.mpr h2), if_neg (not_le.mpr h3),
      if_neg (not_not_intro h4)]
    dsimp only
    rw [if_neg ?hc5a, if_neg ?hc6a, if_pos ⟨h5, by rw [h6]; simpa using h8⟩]
    case hc5a =>
      rintro ⟨hm, hn⟩
      rw [Option.isNone_iff_eq_none] at hn
      rw [hn] at h6
      cases h6
    case hc6a =>
      rintro ⟨hr, hn⟩
      rw [Option.isNone_iff_eq_none] at hn
      rcases h7 with h | h
      · exact hr h
      · rw [hn] at h
        simp at h
  · intro h1 h2 h3 h4 h5 h6
    unfold validateAct
    rw [if_neg (by simp [h1]), if_neg (not_le.mpr h2), if_neg (not_le.mpr h3),
      if_neg (not_not_intro h4)]
    dsimp only
    rw [if_neg ?hc5b, if_neg ?hc6b, if_neg ?hc7b]
    case hc5b =>
      rintro ⟨hm, hn⟩
      obtain ⟨sa, hsa, _⟩ := h5 hm
      rw [Option.isNone_iff_eq_none] at hn
      rw [hn] at hsa
      cases hsa
    case hc6b =>
      rintro ⟨hr, hn⟩
      rw [Option.isNone_iff_eq_none] at hn
      rcases h6 with h | h
      · exact hr h
      · rw [hn] at h
        simp at h
    case hc7b =>
      rintro ⟨hm, hlt⟩
      obtain ⟨sa, hsa, hge⟩ := h5 hm
      rw [hsa] at hlt
      simp only [Option.elim_some] at hlt
      exact absurd hlt (not_lt.mpr hge)

/-- Witness for C3 at a concrete input: `haltedHotState` violates the halt
check, the vibration check, the amount check and the currency check at
once, and the returned error is the earliest (halted). -/
theorem validateAct_check_order_witness :
    validateAct "NOBODY" "" (-5) "DELTA" haltedHotState false =
      .error .systemHalted :=
  (validateAct_check_order "NOBODY" "" (-5) "DELTA" haltedHotState false).1 rfl

/-- C9: CreateAccount is rejected with no state change when the id is
empty, already taken, or the system is halted; on success it appends
exactly one account whose id is the given one and whose balance is zero in
every configured currency, and charges a vibration cost of 1. -/
theorem handleCreateAccountAct_spec (newId newName : String) (s : SystemState) :
    ((newId = "" ∨ (s.accounts.any fun acc => acc.id == newId) = true ∨
        s.isHalted = true) →
      (handleCreateAccountAct newId newName s).1 = s ∧
      ((handleCreateAccountAct newId newName s).2).isSome = true) ∧
    (newId ≠ "" → (s.accounts.any fun acc => acc.id == newId) = false →
      s.isHalted = false →
      (handleCreateAccountAct newId newName s).2 = none ∧
      (handleCreateAccountAct newId newName s).1.accounts =
        s.accounts ++
          [{ id := newId
             name := if newName = "" then "監査アカウント " ++ newId else newName
             bal := fun _ => 0 }] ∧
      (∀ c ∈ CURRENCIES, getBal (handleCreateAccountAct newId newName s).1 newId c = 0) ∧
      (handleCreateAccountAct newId newName s).1.vibration.value =
        min (s.vibration.value + 1) (VIBRATION_LIMIT * 2)) := by
  constructor
  · intro h
    unfold handleCreateAccountAct
    by_cases h1 : newId = "" ∨ (s.accounts.any fun acc => acc.id == newId) = true
    · rw [if_pos h1]
      exact ⟨rfl, rfl⟩
    · rw [if_neg h1]
      have h2 : s.isHalted = true := by
        rcases h with h | h | h
        · exact absurd (Or.inl h) h1
        · exact absurd (Or.inr h) h1
        · exact h
      rw [if_pos h2]
      exact ⟨rfl, rfl⟩
  · intro h1 h2 h3
    have hres : handleCreateAccountAct newId newName s =
        (addVibration { s with accounts := s.accounts ++
          [{ id := newId
             name := if newName = "" then "監査アカウント " ++ newId else newName
             bal := fun _ => 0 }] } 1, none) := by
      unfold handleCreateAccountAct
      rw [if_neg (by simp [h1, h2]), if_neg (by simp [h3])]
    rw [hres]
    refine ⟨rfl, rfl, ?_, rfl⟩
    intro c _
    have hnone : (s.accounts.find? fun a => a.id == newId) = none := by
      rw [List.find?_eq_none]
      intro x hx hpx
      rw [List.any_eq_false] at h2
      exact h2 x hx hpx
    unfold getBal
    dsimp only [addVibration]
    rw [List.find?_append, hnone, Option.none_or,
      List.find?_cons_of_pos _ (by simp)]
    rfl

/-- Witness for C9 at a concrete input: creating account NEW_X in
`initialState` succeeds, initializes the ALPHA balance to zero and charges
a cost of 1. -/
theorem handleCreateAccountAct_spec_witness :
    (handleCreateAccountAct "NEW_X" "X" initialState).2 = none ∧
    getBal (handleCreateAccountAct "NEW_X" "X" initialState).1 "NEW_X" "ALPHA" = 0 ∧
    (handleCreateAccountAct "NEW_X" "X" initialState).1.vibration.value =
      min (initialState.vibration.value + 1) (VIBRATION_LIMIT * 2) := by
  have h := (handleCreateAccountAct_spec "NEW_X" "X" initialState).2
    (by simp) (by rfl) rfl
  exact ⟨h.1, h.2.2.1 "ALPHA" (by simp [CURRENCIES]), h.2.2.2⟩

/-- Pushing `find?` by id through a map that preserves ids. -/
theorem find?_map_id_preserving (l : List Account) (f : Account → Account) (x : String)
    (hf : ∀ a, (f a).id = a.id) :
    (l.map f).find? (fun a => a.id == x) = (l.find? fun a => a.id == x).map f := by
  rw [List.find?_map]
  have hcomp : ((fun a : Account => a.id == x) ∘ f) = fun a : Account => a.id == x := by
    funext a
    simp [Function.comp, hf a]
  rw [hcomp]

/-- Balance-sum bookkeeping for the transfer map: each sender-id match
loses `amt`, each recipient-id match that is not a sender-id match gains
`amt`, everything else is untouched. -/
theorem transfer_sum (l : List Account) (sid rid cur : String) (amt : ℚ) :
    ((l.map fun acc =>
        if acc.id == sid then acc.setBal cur (acc.bal cur - amt)
        else if acc.id == rid then acc.setBal cur (acc.bal cur + amt)
        else acc).map fun a => a.bal cur).sum
      = (l.map fun a => a.bal cur).sum
        - amt * (l.countP fun a => a.id == sid)
        + amt * (l.countP fun a => a.id == rid && !(a.id == sid)) := by
  induction l with
  | nil => simp
  | cons a t ih =>
    simp only [List.map_cons, List.sum_cons]
    by_cases h1 : (a.id == sid) = true
    · rw [List.countP_cons_of_pos (fun a : Account => a.id == sid) _ h1,
        List.countP_cons_of_neg (fun a : Account => a.id == rid && !(a.id == sid)) _
          (by simp [h1]),
        if_pos h1, ih]
      simp only [Account.setBal_bal, beq_self_eq_true, if_pos]
      push_cast
      ring
    · have h1f : (a.id == sid) = false := by
        cases hb : (a.id == sid)
        · rfl
        · exact absurd hb h1
      by_cases h2 : (a.id == rid) = true
      · rw [List.countP_cons_of_neg (fun a : Account => a.id == sid) _ h1,
          List.countP_cons_of_pos (fun a : Account => a.id == rid && !(a.id == sid)) _
            (by simp [h1f, h2]),
          if_neg h1, if_pos h2, ih]
        simp only [Account.setBal_bal, beq_self_eq_true, if_pos]
        push_cast
        ring
      · have h2f : (a.id == rid) = false := by
          cases hb : (a.id == rid)
          · rfl
          · exact absurd hb h2
        rw [List.countP_cons_of_neg (fun a : Account => a.id == sid) _ h1,
          List.countP_cons_of_neg (fun a : Account => a.id == rid && !(a.id == sid)) _
            (by simp [h2f]),
          if_neg h1, if_neg h2, ih]
        ring

/-- C1 (amended): for a successful transfer between two existing accounts
in a state with unique account ids, when senderId and recipientId are
distinct the sender loses exactly `amt`, the recipient gains exactly `amt`
and the total supply of the currency is conserved; when
senderId = recipientId the map's first branch eats the element, so the
account is debited without the credit ever firing and the total supply
drops by `amt`. -/
theorem actTransfer_conservation (sid rid : String) (amt : ℚ) (cur : String)
    (s : SystemState) (v : ValidatedArgs)
    (hok : validateAct sid rid amt cur s false = .ok v)
    (hnd : (s.accounts.map fun a => a.id).Nodup)
    (sa ra : Account)
    (hsa : (s.accounts.find? fun a => a.id == sid) = some sa)
    (hra : (s.accounts.find? fun a => a.id == rid) = some ra) :
    (sid ≠ rid →
      getBal (actTransfer sid rid amt cur s).1 sid cur = getBal s sid cur - amt ∧
      getBal (actTransfer sid rid amt cur s).1 rid cur = getBal s rid cur + amt ∧
      totalSupply (actTransfer sid rid amt cur s).1 cur = totalSupply s cur) ∧
    (sid = rid →
      getBal (actTransfer sid rid amt cur s).1 sid cur = getBal s sid cur - amt ∧
      totalSupply (actTransfer sid rid amt cur s).1 cur = totalSupply s cur - amt) := by
  obtain ⟨hv, -, -, -, -, -, -⟩ := validateAct_ok_inv hok
  have hamt : v.amount = amt := by rw [hv]
  have hacc : (actTransfer sid rid amt cur s).1.accounts =
      s.accounts.map (fun acc =>
        if acc.id == sid then acc.setBal cur (acc.bal cur - amt)
        else if acc.id == rid then acc.setBal cur (acc.bal cur + amt)
        else acc) := by
    unfold actTransfer
    rw [hok]
    dsimp only
    simp only [hamt]
    rfl
  have hfid : ∀ a : Account, ((fun acc =>
      if acc.id == sid then acc.setBal cur (acc.bal cur - amt)
      else if acc.id == rid then acc.setBal cur (acc.bal cur + amt)
      else acc) a).id = a.id := by
    intro a
    dsimp only
    split
    · rfl
    · split
      · rfl
      · rfl
  have hsid : sa.id = sid := by simpa using List.find?_some hsa
  have hrid : ra.id = rid := by simpa using List.find?_some hra
  have hcnt_s : (s.accounts.countP fun a => a.id == sid) = 1 :=
    countP_id_eq_one hnd (List.mem_of_find?_eq_some hsa) hsid
  have hfinds : ((actTransfer sid rid amt cur s).1.accounts.find? fun a => a.id == sid)
      = some (sa.setBal cur (sa.bal cur - amt)) := by
    rw [hacc, find?_map_id_preserving _ _ _ hfid, hsa]
    dsimp only [Option.map_some']
    rw [if_pos (by simp [hsid])]
  constructor
  · intro hne
    have hrs : (ra.id == sid) = false := by
      simp [hrid]
      exact fun h => hne h.symm
    have hfindr : ((actTransfer sid rid amt cur s).1.accounts.find? fun a => a.id == rid)
        = some (ra.setBal cur (ra.bal cur + amt)) := by
      rw [hacc, find?_map_id_preserving _ _ _ hfid, hra]
      dsimp only [Option.map_some']
      rw [if_neg (by simp [hrs]), if_pos (by simp [hrid])]
    refine ⟨?_, ?_, ?_⟩
    · unfold getBal
      rw [hfinds, hsa]
      simp [Account.setBal]
    · unfold getBal
      rw [hfindr, hra]
      simp [Account.setBal]
    · unfold totalSupply
      rw [hacc, transfer_sum, hcnt_s]
      have hcongr : (s.accounts.countP fun a => a.id == rid && !(a.id == sid))
          = s.accounts.countP fun a => a.id == rid := by
        apply List.countP_congr
        intro b hb
        by_cases hbr : (b.id == rid) = true
        · have hbs : (b.id == sid) = false := by
            have : b.id = rid := by simpa using hbr
            simp [this]
            exact fun h => hne h.symm
          simp [hbr, hbs]
        · simp [hbr]
      rw [hcongr, countP_id_eq_one hnd (List.mem_of_find?_eq_some hra) hrid]
      push_cast
      ring
  · intro heq
    subst heq
    refine ⟨?_, ?_⟩
    · unfold getBal
      rw [hfinds, hsa]
      simp [Account.setBal]
    · unfold totalSupply
      rw [hacc, transfer_sum, hcnt_s]
      have hzero : (s.accounts.countP fun a => a.id == sid && !(a.id == sid)) = 0 := by
        rw [List.countP_eq_zero]
        intro b hb
        simp
      rw [hzero]
      push_cast
      ring

/-- Counterexample to C1 as stated: a successful self-transfer
(senderId = recipientId = CORE_BANK_A, 5 ALPHA, from the initial state)
only debits — the sender balance drops from 1000 to 995, the recipient
balance (the same account) does not increase by the amount, and the total
ALPHA supply changes from 1050 to 1045 instead of being invariant. -/
theorem actTransfer_self_counterexample :
    getBal (actTransfer "CORE_BANK_A" "CORE_BANK_A" 5 "ALPHA" initialState).1
      "CORE_BANK_A" "ALPHA" = 995 ∧
    totalSupply initialState "ALPHA" = 1050 ∧
    totalSupply (actTransfer "CORE_BANK_A" "CORE_BANK_A" 5 "ALPHA" initialState).1
      "ALPHA" = 1045 := by
  have hv : validateAct "CORE_BANK_A" "CORE_BANK_A" 5 "ALPHA" initialState false =
      .ok ⟨some coreBankA, some coreBankA, 5, "ALPHA"⟩ := rfl
  refine ⟨?_, ?_, ?_⟩
  · unfold actTransfer
    rw [hv]
    simp [getBal, initialState, coreBankA, userAuditB, Account.setBal,
      addVibration, List.find?_cons]
    norm_num
  · simp [totalSupply, initialState, coreBankA, userAuditB]
    norm_num
  · unfold actTransfer
    rw [hv]
    simp [totalSupply, initialState, coreBankA, userAuditB, Account.setBal,
      addVibration]
    norm_num

/-- Witness for C1 (amended) at a concrete input: transferring 5 ALPHA
from CORE_BANK_A to USER_AUDIT_B in the initial state debits 5, credits 5
and conserves the ALPHA supply. -/
theorem actTransfer_conservation_witness :
    getBal (actTransfer "CORE_BANK_A" "USER_AUDIT_B" 5 "ALPHA" initialState).1
        "CORE_BANK_A" "ALPHA"
      = getBal initialState "CORE_BANK_A" "ALPHA" - 5 ∧
    getBal (actTransfer "CORE_BANK_A" "USER_AUDIT_B" 5 "ALPHA" initialState).1
        "USER_AUDIT_B" "ALPHA"
      = getBal initialState "USER_AUDIT_B" "ALPHA" + 5 ∧
    totalSupply (actTransfer "CORE_BANK_A" "USER_AUDIT_B" 5 "ALPHA" initialState).1
        "ALPHA"
      = totalSupply initialState "ALPHA" :=
  (actTransfer_conservation "CORE_BANK_A" "USER_AUDIT_B" 5 "ALPHA" initialState
    ⟨some coreBankA, some userAuditB, 5, "ALPHA"⟩ rfl
    (by simp [initialState, coreBankA, userAuditB])
    coreBankA userAuditB rfl rfl).1 (by simp)

/-- C5: after a successful validation, Exchange rejects
fromCurrency = toCurrency as the SameCurrency error with the state
unchanged; otherwise it debits exactly `amt` from the account's
fromCurrency balance and credits exactly
`amt * (rates toCurrency / rates fromCurrency)` to its toCurrency balance
on the same account. -/
theorem actExchangeCurrency_spec (aid : String) (amt : ℚ) (fc tc : String)
    (s : SystemState) (v : ValidatedArgs)
    (hok : validateAct aid aid amt fc s false = .ok v) :
    (fc = tc → actExchangeCurrency aid amt fc tc s = (s, some ActError.sameCurrency)) ∧
    (fc ≠ tc → ∀ sa, (s.accounts.find? fun a => a.id == aid) = some sa →
      getBal (actExchangeCurrency aid amt fc tc s).1 aid fc = getBal s aid fc - amt ∧
      getBal (actExchangeCurrency aid amt fc tc s).1 aid tc =
        getBal s aid tc + amt * (s.currency_rates tc / s.currency_rates fc)) := by
  obtain ⟨hv, -, -, -, -, -, -⟩ := validateAct_ok_inv hok
  have hamt : v.amount = amt := by rw [hv]
  constructor
  · intro heq
    unfold actExchangeCurrency
    rw [hok]
    dsimp only
    rw [if_pos (by simp [heq])]
  · intro hne sa hsa
    have hfc : (fc == tc) = false := by
      cases hb : (fc == tc)
      · rfl
      · exact absurd (by simpa using hb) hne
    have hacc : (actExchangeCurrency aid amt fc tc s).1.accounts =
        s.accounts.map (fun acc =>
          if acc.id == aid then
            (acc.setBal fc (acc.bal fc - amt)).setBal tc
              (acc.bal tc + amt * (s.currency_rates tc / s.currency_rates fc))
          else acc) := by
      unfold actExchangeCurrency
      rw [hok]
      dsimp only
      rw [if_neg (by simp [hfc])]
      simp only [hamt]
      rfl
    have hfid : ∀ a : Account, ((fun acc =>
        if acc.id == aid then
          (acc.setBal fc (acc.bal fc - amt)).setBal tc
            (acc.bal tc + amt * (s.currency_rates tc / s.currency_rates fc))
        else acc) a).id = a.id := by
      intro a
      dsimp only
      split
      · rfl
      · rfl
    have hsid : sa.id = aid := by simpa using List.find?_some hsa
    have hfinds : ((actExchangeCurrency aid amt fc tc s).1.accounts.find?
        fun a => a.id == aid)
        = some ((sa.setBal fc (sa.bal fc - amt)).setBal tc
            (sa.bal tc + amt * (s.currency_rates tc / s.currency_rates fc))) := by
      rw [hacc, find?_map_id_preserving _ _ _ hfid, hsa]
      dsimp only [Option.map_some']
      rw [if_pos (by simp [hsid])]
    constructor
    · unfold getBal
      rw [hfinds, hsa]
      simp [Account.setBal, hfc, hne]
    · unfold getBal
      rw [hfinds, hsa]
      simp [Account.setBal]

/-- Witness for C5 at the spec's concrete scenario: rates ALPHA 1.0 and
BETA 10.0, Exchange(USER_AUDIT_B, 5, ALPHA, BETA) debits 5 ALPHA and
credits 5 * (10/1) = 50 BETA. -/
theorem actExchangeCurrency_spec_witness :
    (getBal (actExchangeCurrency "USER_AUDIT_B" 5 "ALPHA" "BETA" initialState).1
        "USER_AUDIT_B" "ALPHA"
      = getBal initialState "USER_AUDIT_B" "ALPHA" - 5 ∧
    getBal (actExchangeCurrency "USER_AUDIT_B" 5 "ALPHA" "BETA" initialState).1
        "USER_AUDIT_B" "BETA"
      = getBal initialState "USER_AUDIT_B" "BETA" +
          5 * (initialState.currency_rates "BETA" / initialState.currency_rates "ALPHA")) ∧
    initialState.currency_rates "BETA" = 10 ∧
    initialState.currency_rates "ALPHA" = 1 := by
  have h := (actExchangeCurrency_spec "USER_AUDIT_B" 5 "ALPHA" "BETA" initialState
    ⟨some userAuditB, some userAuditB, 5, "ALPHA"⟩ rfl).2 (by simp) userAuditB rfl
  exact ⟨⟨h.1, h.2⟩, rfl, rfl⟩

/-- One gauge operation with a nonnegative add amount keeps the value in
the interval `[0, 2 * VIBRATION_LIMIT]`. -/
theorem applyGaugeOp_bounds (s : SystemState) (op : GaugeOp)
    (hx : ∀ x, op = GaugeOp.add x → 0 ≤ x)
    (h0 : 0 ≤ s.vibration.value) (h2 : s.vibration.value ≤ VIBRATION_LIMIT * 2) :
    0 ≤ (applyGaugeOp s op).vibration.value ∧
    (applyGaugeOp s op).vibration.value ≤ VIBRATION_LIMIT * 2 := by
  cases op with
  | add x =>
    have hx0 := hx x rfl
    simp only [applyGaugeOp, addVibration]
    constructor
    · exact le_min (add_nonneg h0 hx0) (by norm_num [VIBRATION_LIMIT])
    · exact min_le_right _ _
  | decay now =>
    simp only [applyGaugeOp]
    rcases decayVibration_value s now with h | ⟨he, h⟩
    · rw [h]
      exact ⟨h0, h2⟩
    · rw [h]
      constructor
      · exact le_max_left 0 _
      · apply max_le
        · norm_num [VIBRATION_LIMIT]
        · have hd : 0 ≤ (now - s.vibration.last_decay) / 1000 * (1 / 2) :=
            mul_nonneg (le_trans zero_le_one he) (by norm_num)
          linarith
  | reset now =>
    simp only [applyGaugeOp, resetVibration]
    norm_num [VIBRATION_LIMIT]

/-- A whole sequence of gauge operations whose add amounts are all
nonnegative keeps the value in the interval. -/
theorem applyGaugeOps_bounds (ops : List GaugeOp) :
    ∀ s : SystemState, (∀ x, GaugeOp.add x ∈ ops → 0 ≤ x) →
      0 ≤ s.vibration.value → s.vibration.value ≤ VIBRATION_LIMIT * 2 →
      0 ≤ (applyGaugeOps s ops).vibration.value ∧
      (applyGaugeOps s ops).vibration.value ≤ VIBRATION_LIMIT * 2 := by
  induction ops with
  | nil =>
    intro s _ h0 h2
    exact ⟨h0, h2⟩
  | cons op rest ih =>
    intro s hops h0 h2
    have hstep := applyGaugeOp_bounds s op
      (fun x hxe => hops x (by rw [← hxe]; exact List.mem_cons_self op rest)) h0 h2
    exact ih (applyGaugeOp s op) (fun x hx => hops x (List.mem_cons_of_mem _ hx))
      hstep.1 hstep.2

/-- C7 (amended): the gauge value stays in `[0, 2 * VIBRATION_LIMIT]` under
every sequence of add, decay and reset operations whose add amounts are
nonnegative (every vibration cost in the program is one of the positive
constants 0.5, 1, 2, 3, 5) from a value in that interval; `add x` with
`value + x` above the ceiling clamps to exactly `2 * VIBRATION_LIMIT`,
and decay never drops below 0.  `addVibration` itself has no lower clamp,
so an add with a negative amount can leave the interval — see the
counterexample. -/
theorem vibration_gauge_bounds (s : SystemState) (ops : List GaugeOp)
    (hops : ∀ x, GaugeOp.add x ∈ ops → 0 ≤ x)
    (h0 : 0 ≤ s.vibration.value) (h2 : s.vibration.value ≤ VIBRATION_LIMIT * 2) :
    (0 ≤ (applyGaugeOps s ops).vibration.value ∧
     (applyGaugeOps s ops).vibration.value ≤ VIBRATION_LIMIT * 2) ∧
    (∀ x, VIBRATION_LIMIT * 2 < s.vibration.value + x →
      (addVibration s x).vibration.value = VIBRATION_LIMIT * 2) ∧
    (∀ now, 0 ≤ (decayVibration s now).1.vibration.value) := by
  refine ⟨applyGaugeOps_bounds ops s hops h0 h2, ?_, ?_⟩
  · intro x hgt
    simp only [addVibration]
    exact min_eq_right (le_of_lt hgt)
  · intro now
    rcases decayVibration_value s now with h | ⟨-, h⟩
    · rw [h]
      exact h0
    · rw [h]
      exact le_max_left 0 _

/-- Counterexample to C7 as stated: from the initial state (value 0, inside
the interval), the single operation `add (-1)` — `addVibration` is an
exported function with no lower clamp — drives the gauge value to -1,
outside `[0, 2 * VIBRATION_LIMIT]`. -/
theorem vibration_gauge_counterexample :
    0 ≤ initialState.vibration.value ∧
    initialState.vibration.value ≤ VIBRATION_LIMIT * 2 ∧
    (applyGaugeOps initialState [GaugeOp.add (-1)]).vibration.value = -1 ∧
    ¬ 0 ≤ (applyGaugeOps initialState [GaugeOp.add (-1)]).vibration.value := by
  have hval : (applyGaugeOps initialState [GaugeOp.add (-1)]).vibration.value = -1 := by
    norm_num [applyGaugeOps, applyGaugeOp, addVibration, initialState, VIBRATION_LIMIT]
  refine ⟨by norm_num [initialState], by norm_num [initialState, VIBRATION_LIMIT], hval, ?_⟩
  rw [hval]
  norm_num

/-- Witness for C7 (amended) at a concrete input: the sequence add 5,
decay at 4 s, add 300 (which overshoots the ceiling) keeps the value
inside `[0, 200]`. -/
theorem vibration_gauge_bounds_witness :
    0 ≤ (applyGaugeOps initialState
        [GaugeOp.add 5, GaugeOp.decay 4000, GaugeOp.add 300]).vibration.value ∧
    (applyGaugeOps initialState
        [GaugeOp.add 5, GaugeOp.decay 4000, GaugeOp.add 300]).vibration.value ≤
      VIBRATION_LIMIT * 2 :=
  (vibration_gauge_bounds initialState
    [GaugeOp.add 5, GaugeOp.decay 4000, GaugeOp.add 300]
    (by
      intro x hx
      simp only [List.mem_cons, List.not_mem_nil, or_false] at hx
      rcases hx with hx | hx | hx
      · cases hx
        norm_num
      · cases hx
      · cases hx
        norm_num)
    (by norm_num [initialState]) (by norm_num [initialState, VIBRATION_LIMIT])).1

/-- The two initial accounts carry only nonnegative balances. -/
theorem initial_accounts_nonneg : ∀ a ∈ initialState.accounts, ∀ c, 0 ≤ a.bal c := by
  intro a ha c
  simp only [initialState, List.mem_cons, List.not_mem_nil, or_false] at ha
  rcases ha with rfl | rfl
  · simp only [coreBankA]
    split_ifs <;> norm_num
  · simp only [userAuditB]
    split_ifs <;> norm_num

/-- C4 (amended): from any state satisfying the data-model invariants —
unique account ids, nonnegative currency rates — in which every balance is
nonnegative, no act produces a negative balance: transfer and exchange
debits are bounded by the validated balance, mint and transfer credits add
a positive amount, create-account initializes to zero. -/
theorem acts_preserve_nonneg (s : SystemState)
    (hnd : uniqueIds s) (hr : nonnegRates s) (h0 : nonnegBalances s) :
    (∀ sid rid amt cur, nonnegBalances (actTransfer sid rid amt cur s).1) ∧
    (∀ rid amt cur, nonnegBalances (actMintCurrency rid amt cur s).1) ∧
    (∀ aid amt fc tc, nonnegBalances (actExchangeCurrency aid amt fc tc s).1) ∧
    (∀ newId newName, nonnegBalances (handleCreateAccountAct newId newName s).1) := by
  refine ⟨?_, ?_, ?_, ?_⟩
  · intro sid rid amt cur
    cases hv : validateAct sid rid amt cur s false with
    | error e =>
      have hid : (actTransfer sid rid amt cur s).1 = s := by
        unfold actTransfer
        rw [hv]
      rw [hid]
      exact h0
    | ok v =>
      obtain ⟨hveq, -, -, hpos, -, hsend, -⟩ := validateAct_ok_inv hv
      obtain ⟨sa, hsa, hge⟩ := hsend rfl
      have hamt : v.amount = amt := by rw [hveq]
      have hacc : (actTransfer sid rid amt cur s).1.accounts =
          s.accounts.map (fun acc =>
            if acc.id == sid then acc.setBal cur (acc.bal cur - amt)
            else if acc.id == rid then acc.setBal cur (acc.bal cur + amt)
            else acc) := by
        unfold actTransfer
        rw [hv]
        dsimp only
        simp only [hamt]
        rfl
      intro a ha c
      rw [hacc] at ha
      obtain ⟨b, hb, rfl⟩ := List.mem_map.mp ha
      by_cases hbs : (b.id == sid) = true
      · have hbeq : b = sa := by
          have hbid : b.id = sid := by simpa using hbs
          have hfind := find?_unique hnd hb hbid
          rw [hfind] at hsa
          exact Option.some.inj hsa
        rw [if_pos hbs, Account.setBal_bal]
        by_cases hc : (c == cur) = true
        · rw [if_pos hc, hbeq]
          linarith
        · rw [if_neg hc]
          exact h0 b hb c
      · rw [if_neg hbs]
        by_cases hbr : (b.id == rid) = true
        · rw [if_pos hbr, Account.setBal_bal]
          by_cases hc : (c == cur) = true
          · rw [if_pos hc]
            have := h0 b hb cur
            linarith
          · rw [if_neg hc]
            exact h0 b hb c
        · rw [if_neg hbr]
          exact h0 b hb c
  · intro rid amt cur
    cases hv : validateAct "" rid amt cur s true with
    | error e =>
      have hid : (actMintCurrency rid amt cur s).1 = s := by
        unfold actMintCurrency
        rw [hv]
      rw [hid]
      exact h0
    | ok v =>
      obtain ⟨hveq, -, -, hpos, -, -, -⟩ := validateAct_ok_inv hv
      have hamt : v.amount = amt := by rw [hveq]
      have hacc : (actMintCurrency rid amt cur s).1.accounts =
          s.accounts.map (fun acc =>
            if acc.id == rid then acc.setBal cur (acc.bal cur + amt)
            else acc) := by
        unfold actMintCurrency
        rw [hv]
        dsimp only
        simp only [hamt]
        rfl
      intro a ha c
      rw [hacc] at ha
      obtain ⟨b, hb, rfl⟩ := List.mem_map.mp ha
      by_cases hbr : (b.id == rid) = true
      · rw [if_pos hbr, Account.setBal_bal]
        by_cases hc : (c == cur) = true
        · rw [if_pos hc]
          have := h0 b hb cur
          linarith
        · rw [if_neg hc]
          exact h0 b hb c
      · rw [if_neg hbr]
        exact h0 b hb c
  · intro aid amt fc tc
    cases hv : validateAct aid aid amt fc s false with
    | error e =>
      have hid : (actExchangeCurrency aid amt fc tc s).1 = s := by
        unfold actExchangeCurrency
        rw [hv]
      rw [hid]
      exact h0
    | ok v =>
      by_cases hft : (fc == tc) = true
      · have hid : (actExchangeCurrency aid amt fc tc s).1 = s := by
          unfold actExchangeCurrency
          rw [hv]
          dsimp only
          rw [if_pos hft]
        rw [hid]
        exact h0
      · obtain ⟨hveq, -, -, hpos, -, hsend, -⟩ := validateAct_ok_inv hv
        obtain ⟨sa, hsa, hge⟩ := hsend rfl
        have hamt : v.amount = amt := by rw [hveq]
        have hacc : (actExchangeCurrency aid amt fc tc s).1.accounts =
            s.accounts.map (fun acc =>
              if acc.id == aid then
                (acc.setBal fc (acc.bal fc - amt)).setBal tc
                  (acc.bal tc + amt * (s.currency_rates tc / s.currency_rates fc))
              else acc) := by
          unfold actExchangeCurrency
          rw [hv]
          dsimp only
          rw [if_neg hft]
          simp only [hamt]
          rfl
        intro a ha c
        rw [hacc] at ha
        obtain ⟨b, hb, rfl⟩ := List.mem_map.mp ha
        by_cases hba : (b.id == aid) = true
        · have hbeq : b = sa := by
            have hbid : b.id = aid := by simpa using hba
            have hfind := find?_unique hnd hb hbid
            rw [hfind] at hsa
            exact Option.some.inj hsa
          rw [if_pos hba, Account.setBal_bal]
          by_cases hc : (c == tc) = true
          · rw [if_pos hc]
            have hrate : 0 ≤ s.currency_rates tc / s.currency_rates fc :=
              div_nonneg (hr tc) (hr fc)
            have hrecv : 0 ≤ amt * (s.currency_rates tc / s.currency_rates fc) :=
              mul_nonneg (le_of_lt hpos) hrate
            have := h0 b hb tc
            linarith
          · rw [if_neg hc, Account.setBal_bal]
            by_cases hcf : (c == fc) = true
            · rw [if_pos hcf]
              rw [hbeq]
              linarith
            · rw [if_neg hcf]
              exact h0 b hb c
        · rw [if_neg hba]
          exact h0 b hb c
  · intro newId newName
    by_cases h1 : newId = "" ∨ (s.accounts.any fun acc => acc.id == newId) = true
    · have hid : (handleCreateAccountAct newId newName s).1 = s := by
        unfold handleCreateAccountAct
        rw [if_pos h1]
      rw [hid]
      exact h0
    · by_cases h2 : s.isHalted = true
      · have hid : (handleCreateAccountAct newId newName s).1 = s := by
          unfold handleCreateAccountAct
          rw [if_neg h1, if_pos h2]
        rw [hid]
        exact h0
      · have hacc : (handleCreateAccountAct newId newName s).1.accounts =
            s.accounts ++
              [{ id := newId
                 name := if newName = "" then "監査アカウント " ++ newId else newName
                 bal := fun _ => 0 }] := by
          unfold handleCreateAccountAct
          rw [if_neg h1, if_neg h2]
          rfl
        intro a ha c
        rw [hacc] at ha
        rcases List.mem_append.mp ha with h | h
        · exact h0 a h c
        · simp only [List.mem_cons, List.not_mem_nil, or_false] at h
          rw [h]

/-- Counterexample to C4 as stated: `negRateState` has only nonnegative
balances (it differs from the initial state only in the BETA rate, which
is -10), yet a successful Exchange(USER_AUDIT_B, 5, ALPHA, BETA) credits
5 * (-10/1) = -50 and leaves a persisted BETA balance of -50. -/
theorem nonneg_balances_counterexample :
    nonnegBalances negRateState ∧
    getBal (actExchangeCurrency "USER_AUDIT_B" 5 "ALPHA" "BETA" negRateState).1
      "USER_AUDIT_B" "BETA" = -50 ∧
    ¬ 0 ≤ getBal (actExchangeCurrency "USER_AUDIT_B" 5 "ALPHA" "BETA" negRateState).1
      "USER_AUDIT_B" "BETA" := by
  have hval : getBal (actExchangeCurrency "USER_AUDIT_B" 5 "ALPHA" "BETA" negRateState).1
      "USER_AUDIT_B" "BETA" = -50 := by
    have hv : validateAct "USER_AUDIT_B" "USER_AUDIT_B" 5 "ALPHA" negRateState false =
        .ok ⟨some userAuditB, some userAuditB, 5, "ALPHA"⟩ := rfl
    unfold actExchangeCurrency
    rw [hv]
    simp [getBal, negRateState, initialState, coreBankA, userAuditB, Account.setBal,
      addVibration, List.find?_cons]
    norm_num
  refine ⟨initial_accounts_nonneg, hval, ?_⟩
  rw [hval]
  norm_num

/-- Witness for C4 (amended) at a concrete input: the initial state
satisfies the invariants, and a transfer from it keeps all balances
nonnegative. -/
theorem acts_preserve_nonneg_witness :
    nonnegBalances (actTransfer "CORE_BANK_A" "USER_AUDIT_B" 5 "ALPHA" initialState).1 :=
  (acts_preserve_nonneg initialState
    (by simp [uniqueIds, initialState, coreBankA, userAuditB])
    (by
      intro c
      simp only [initialState, initialRates]
      split_ifs <;> norm_num)
    initial_accounts_nonneg).1 "CORE_BANK_A" "USER_AUDIT_B" 5 "ALPHA"

end MSGAI
